import Mathlib

/-!
Verification development for the onch crawler/automation service.

The definitions below are shallow embeddings of the TypeScript source:
pure string manipulation is translated directly; browser interaction is
abstracted into explicit environment records (what the page would answer),
and thrown exceptions are modelled with `Except String`.
-/

/-! ## Generic string helpers (JS `trim`, `replace(/\s+/g,'')`, `includes`, regexes) -/

/-- Does `l` start with `p` (character lists)? -/
def startsWithChars : List Char → List Char → Bool
  | _, [] => true
  | [], _ :: _ => false
  | c :: cs, p :: ps => c = p && startsWithChars cs ps

/-- Does `l` contain `p` as a contiguous chunk?  Models JS `String.includes`. -/
def hasSubChunk (p : List Char) : List Char → Bool
  | [] => p.isEmpty
  | c :: cs => startsWithChars (c :: cs) p || hasSubChunk p cs

/-- JS `a.includes(b)` on strings. -/
def includesStr (s sub : String) : Bool :=
  hasSubChunk sub.toList s.toList

/-- JS `String.prototype.trim`: strip leading and trailing whitespace. -/
def trimStr (s : String) : String :=
  ⟨((s.toList.dropWhile Char.isWhitespace).reverse.dropWhile Char.isWhitespace).reverse⟩

/-- JS `text.replace(/\s+/g, '')`: remove every whitespace character. -/
def normalizeText (s : String) : String :=
  ⟨s.toList.filter (fun c => !c.isWhitespace)⟩

/-- Value of a digit character. -/
def digitVal (c : Char) : Nat := c.toNat - '0'.toNat

/-- `parseInt(d, 10)` on a list of digit characters. -/
def digitsToNat (l : List Char) : Nat :=
  l.foldl (fun acc c => acc * 10 + digitVal c) 0

/-- First match of the regex `CH\d{7}` in `s` (JS `s.match(/CH\d{7}/)?.[0]`). -/
def matchCH7Aux : List Char → Option (List Char)
  | [] => none
  | c :: cs =>
    let cand := (c :: cs).take 9
    if startsWithChars (c :: cs) ['C', 'H'] &&
        cand.length = 9 && (cand.drop 2).all Char.isDigit then
      some cand
    else
      matchCH7Aux cs

/-- First match of `CH\d{7}` as a string. -/
def matchCH7 (s : String) : Option String :=
  (matchCH7Aux s.toList).map fun l => ⟨l⟩

/-- First match of the regex `<label>(\d+)` in `s`, returning the parsed
capture group.  Models e.g. `alertMessage.match(/성공 : (\d+)/)`. -/
def matchLabeledCountAux (label : List Char) : List Char → Option Nat
  | [] => none
  | c :: cs =>
    if startsWithChars (c :: cs) label &&
        (match ((c :: cs).drop label.length).head? with
         | some d => d.isDigit
         | none => false) then
      some (digitsToNat (((c :: cs).drop label.length).takeWhile Char.isDigit))
    else
      matchLabeledCountAux label cs

/-- String-level wrapper for `matchLabeledCountAux`. -/
def matchLabeledCount (label s : String) : Option Nat :=
  matchLabeledCountAux label.toList s.toList

/-! ## C1 — pagination loops

`crawlProductList` (crawlOnchRegisteredProducts.provider.ts): starting at page
1, fetch a page, extract product ids; stop when a page yields no ids,
otherwise accumulate and advance.  The page source is abstracted as
`src : Nat → List String` (ids extracted from page `n`).  The loop has no
intrinsic bound, so it is embedded with explicit fuel; the pair returned is
(accumulated ids, list of fetched page numbers in order). -/

def crawlLoop (src : Nat → List String) : Nat → Nat → List String × List Nat
  | 0, _ => ([], [])
  | fuel + 1, page =>
    let productIds := src page
    if productIds.isEmpty then
      ([], [page])
    else
      let rest := crawlLoop src fuel (page + 1)
      (productIds ++ rest.1, page :: rest.2)

/-- `crawlProductList`: the pagination loop started at page 1. -/
def crawlProductList (src : Nat → List String) (fuel : Nat) : List String × List Nat :=
  crawlLoop src fuel 1

/-- One delivery record (deliveryExtraction.provider.ts `DeliveryData`). -/
structure DeliveryData where
  deliveryDate : String
  nameText : String
  phoneText : String
  courier : String
  trackNumber : String
deriving DecidableEq, Repr

/-- `extractDeliveryData` (deliveryExtraction.provider.ts): while pages remain,
extract the current page (`recs`); stop on an empty page; otherwise accumulate
and try `moveToNextPage` (`mv`); if the move fails, stop with what was
accumulated.  Returns (records, fetched page numbers). -/
def deliveryLoop (recs : Nat → List DeliveryData) (mv : Nat → Bool) :
    Nat → Nat → List DeliveryData × List Nat
  | 0, _ => ([], [])
  | fuel + 1, page =>
    let pageData := recs page
    if pageData.isEmpty then
      ([], [page])
    else if mv page then
      let rest := deliveryLoop recs mv fuel (page + 1)
      (pageData ++ rest.1, page :: rest.2)
    else
      (pageData, [page])

/-- `extractDeliveryData`: the delivery pagination loop started at page 1. -/
def extractDeliveryData (recs : Nat → List DeliveryData) (mv : Nat → Bool)
    (fuel : Nat) : List DeliveryData × List Nat :=
  deliveryLoop recs mv fuel 1

/-! ## C4 — `extractProductCodes` (deleteProducts.provider.ts)

A sold-out record may carry its onch product code in one of four places; the
JS guards are `'field' in product && product.field` (presence plus string
truthiness), tried in order.  A `Set` collects the codes, deduplicating while
preserving insertion order. -/

/-- Upstream sold-out record; `none` models an absent field and `some ""` a
present-but-falsy one. -/
structure SoldoutRecord where
  coupangProductCode : Option String
  sellerProductName : Option String
  sellerManagementCode : Option String
  externalVendorSkuCode : Option String
deriving DecidableEq, Repr

/-- JS truthiness of an optional string field. -/
def truthy : Option String → Bool
  | some s => !s.isEmpty
  | none => false

/-- The code one record contributes, following the source's if/else chain. -/
def extractOne (r : SoldoutRecord) : Option String :=
  if truthy r.coupangProductCode then
    r.coupangProductCode.map trimStr
  else if truthy r.sellerProductName then
    matchCH7 (r.sellerProductName.getD "")
  else if truthy r.sellerManagementCode then
    r.sellerManagementCode.map trimStr
  else if truthy r.externalVendorSkuCode then
    r.externalVendorSkuCode
  else
    none

/-- `Set.add`: append the code if it is not already present. -/
def addUnique (acc : List String) (c : String) : List String :=
  if c ∈ acc then acc else acc ++ [c]

/-- `extractProductCodes`: fold every record's code into the set, then return
the set in insertion order (`Array.from`). -/
def extractProductCodes (records : List SoldoutRecord) : List String :=
  records.foldl
    (fun acc r =>
      match extractOne r with
      | some c => addUnique acc c
      | none => acc)
    []

/-! ## C2 — `automaticOrdering` (onch.crawler.service.ts lines 298-396)

The service iterates every order and, inside it, every order item; each item
runs the search → select-option → set-quantity → fill-details → submit
pipeline inside its own try/catch and pushes exactly one result record.
Browser reality is abstracted into `PageEnv`; the option-matching step is
embedded concretely from automaticOrdering.provider.ts (`selectProductOption`
for a single option string). -/

/-- One `<option>` of the `.selectOptionList` dropdown. -/
structure OptionEntry where
  text : String
  value : String
deriving DecidableEq, Repr

/-- One coupang order item (the fields the service reads). -/
structure OrderItem where
  sellerProductName : String
  sellerProductItemName : String
  externalVendorSkuCode : String
  vendorItemName : String
  shippingCount : Int
deriving DecidableEq, Repr

/-- Receiver block of an order. -/
structure Receiver where
  name : String
  safeNumber : String
  postCode : String
  addr1 : String
  addr2 : String
deriving DecidableEq, Repr

/-- Orderer block of an order. -/
structure Orderer where
  name : String
deriving DecidableEq, Repr

/-- One coupang order. -/
structure CoupangOrderInfo where
  orderId : String
  orderer : Orderer
  receiver : Receiver
  orderItems : List OrderItem
deriving DecidableEq, Repr

/-- What the (already logged-in) onch page would answer during one item's
pipeline: whether the order button exists for a product code, the option
dropdown contents, whether the quantity field appears, and the outcome of the
form-fill and submit interactions. -/
structure PageEnv where
  orderButtonFor : String → Bool
  options : List OptionEntry
  quantityFieldOk : Bool
  fillResult : Except String Unit
  completeResult : Except String Unit

/-- `searchProduct` (provider): fill the search box, press enter, then wait
for the order button; its absence is a thrown error naming the query. -/
def searchProduct (env : PageEnv) (query : String) : Except String Unit :=
  if env.orderButtonFor query then
    .ok ()
  else
    .error ("제품 코드에 대한 주문 버튼을 찾을 수 없습니다: " ++ query)

/-- `selectProductOption` (provider): whitespace-normalized exact or substring
match against the dropdown texts; no match is a thrown error. -/
def selectProductOption (env : PageEnv) (option : String) : Except String Unit :=
  match env.options.find? (fun opt =>
      normalizeText opt.text = normalizeText option ||
      includesStr (normalizeText opt.text) (normalizeText option)) with
  | some _ => .ok ()
  | none => .error ("옵션을 찾을 수 없습니다 \"" ++ normalizeText option ++ "\"")

/-- `setProductQuantity` (provider, cron variant): a falsy quantity throws;
then the quantity field is awaited (a timeout is rethrown wrapped). -/
def setProductQuantity (env : PageEnv) (quantity : Int) : Except String Unit :=
  if quantity = 0 then
    .error "발주 개수를 찾을 수 없습니다."
  else if env.quantityFieldOk then
    .ok ()
  else
    .error "수량 설정 실패 - Timeout"

/-- `fillOrderDetails` (provider): missing receiver name/phone or missing
postcode/address throw; then the five fields are filled. -/
def fillOrderDetails (env : PageEnv) (order : CoupangOrderInfo) : Except String Unit :=
  if order.receiver.name = "" || order.receiver.safeNumber = "" then
    .error "수취인 정보를 찾을 수 없습니다."
  else if order.receiver.postCode = "" ||
      trimStr (order.receiver.addr1 ++ " " ++ order.receiver.addr2) = "" then
    .error "수취인 주소를 찾을 수 없습니다."
  else
    env.fillResult

/-- The whole per-item pipeline run inside the service's inner `try`. -/
def orderItemPipeline (env : PageEnv) (order : CoupangOrderInfo) (item : OrderItem) :
    Except String Unit := do
  searchProduct env item.externalVendorSkuCode
  selectProductOption env item.sellerProductItemName
  setProductQuantity env item.shippingCount
  fillOrderDetails env order
  env.completeResult

/-- One element of the results array pushed per order item. -/
inductive OrderResult where
  | success (orderId ordererName receiverName sellerProductName
      sellerProductItemName : String) (shippingCount : Int)
  | failed (orderId ordererName receiverName productCode sellerProductName
      sellerProductItemName : String) (shippingCount : Int)
      (safeNumber fullAddress errorMsg : String)
deriving DecidableEq, Repr

/-- The record pushed for one order item: `success` when the pipeline ran
through, `failed` carrying `error.message` when it threw. -/
def processOrderItem (env : PageEnv) (order : CoupangOrderInfo) (item : OrderItem) :
    OrderResult :=
  match orderItemPipeline env order item with
  | .ok _ =>
    .success order.orderId order.orderer.name order.receiver.name
      item.sellerProductName item.sellerProductItemName item.shippingCount
  | .error e =>
    .failed order.orderId order.orderer.name order.receiver.name
      item.externalVendorSkuCode item.sellerProductName item.sellerProductItemName
      item.shippingCount order.receiver.safeNumber
      (order.receiver.addr1 ++ order.receiver.addr2) e

/-- Inner loop over one order's items, pushing onto the results accumulator. -/
def orderItemsLoop (env : PageEnv) (order : CoupangOrderInfo)
    (acc : List OrderResult) : List OrderItem → List OrderResult
  | [] => acc
  | item :: rest =>
    orderItemsLoop env order (acc ++ [processOrderItem env order item]) rest

/-- Outer loop over the orders. -/
def ordersLoop (env : PageEnv) (acc : List OrderResult) :
    List CoupangOrderInfo → List OrderResult
  | [] => acc
  | order :: rest => ordersLoop env (orderItemsLoop env order acc order.orderItems) rest

/-- `automaticOrdering`: run both nested loops starting from an empty results
array and return the accumulated per-item results. -/
def automaticOrdering (env : PageEnv) (orders : List CoupangOrderInfo) :
    List OrderResult :=
  ordersLoop env [] orders

/-! ## C5 / C6 — bulk registration pages (ProductRegistrationProvider)

`performProductRegistrationAction` clicks through one page and concurrently
(a) watches API responses for rate-limit phrases and (b) waits for the native
confirmation dialog (racing a timeout).  It is abstracted over whether a
rate-limit phrase was captured inside the wait window and over the dialog
message (none = the dialog never fired, so the timeout rejection is thrown).
The mail notification is counted so that its emission can be stated. -/

/-- Abstraction of one run of the registration action on a loaded page. -/
structure ActionEnv where
  apiCaptured : Bool
  dialogMsg : Option String

/-- What `performProductRegistrationAction` resolves with. -/
structure ActionResult where
  alertMessage : String
  dailyLimitReached : Bool
deriving DecidableEq, Repr

/-- `performProductRegistrationAction`: emits one notification when the
rate-limit phrase was captured, then awaits the dialog; a missing dialog is
the thrown timeout error.  Second component: notifications emitted. -/
def performProductRegistrationAction (env : ActionEnv) :
    Except String ActionResult × Nat :=
  let notifications := if env.apiCaptured then 1 else 0
  match env.dialogMsg with
  | some m => (.ok ⟨m, env.apiCaptured⟩, notifications)
  | none => (.error "알럿 대화상자 타임아웃", notifications)

/-- `MAX_RETRY_COUNT` of ProductRegistrationProvider. -/
def MAX_RETRY_COUNT : Nat := 3

/-- Per-page result record (`ProductRegistrationResult`). -/
structure ProductRegistrationResult where
  page : Nat
  success : Bool
  alertMessage : String
  errorMessage : String
deriving DecidableEq, Repr

/-- What `processPage` returns, extended with the number of action attempts
made and of fixed 2-second delays waited (ghost observability fields). -/
structure PageOutcome where
  result : Option ProductRegistrationResult
  dailyLimitReached : Bool
  noMoreProducts : Bool
  attempts : Nat
  delays : Nat
deriving DecidableEq, Repr

/-- Retry loop body of `processPage`.  `env i` is the outcome of the
registration action on attempt `i`; `retriesLeft` starts at
`MAX_RETRY_COUNT`.  A successful action is classified by its alert message;
an exception consumes one retry, and exhausting the retries returns a failed
per-page result carrying the last error message. -/
def processPageAux (env : Nat → Except String ActionResult) (currentPage : Nat) :
    Nat → Nat → PageOutcome
  | 0, _ => ⟨none, false, false, 0, 0⟩
  | retriesLeft + 1, attempt =>
    match env attempt with
    | .ok actionResult =>
      if actionResult.dailyLimitReached then
        ⟨none, true, false, 1, 0⟩
      else if includesStr actionResult.alertMessage "상품을 선택해 주세요" then
        ⟨none, false, true, 1, 0⟩
      else if includesStr actionResult.alertMessage "상품 전송에 실패하였습니다" then
        ⟨some ⟨currentPage, false, actionResult.alertMessage, ""⟩, false, false, 1, 0⟩
      else
        ⟨some ⟨currentPage, true, actionResult.alertMessage, ""⟩, false, false, 1, 0⟩
    | .error e =>
      if retriesLeft = 0 then
        ⟨some ⟨currentPage, false, "", e⟩, false, false, 1, 0⟩
      else
        let r := processPageAux env currentPage retriesLeft (attempt + 1)
        ⟨r.result, r.dailyLimitReached, r.noMoreProducts, r.attempts + 1, r.delays + 1⟩

/-- `processPage`: the retry loop with `MAX_RETRY_COUNT` budget. -/
def processPage (env : Nat → Except String ActionResult) (currentPage : Nat) :
    PageOutcome :=
  processPageAux env currentPage MAX_RETRY_COUNT 0

/-- What `processPages` produces, extended with the list of pages actually
navigated (pages for which `processPage` was invoked), in order. -/
structure PagesOutcome where
  results : List ProductRegistrationResult
  navigated : List Nat
deriving DecidableEq, Repr

/-- Loop body of `processPages`: at each page first check the
`dailyLimitReached` flag and break; otherwise process the page, record its
result, propagate the flag, and break early on `noMoreProducts`. -/
def processPagesAux (env : Nat → Nat → Except String ActionResult) :
    Nat → Nat → Bool → PagesOutcome
  | 0, _, _ => ⟨[], []⟩
  | fuel + 1, page, dailyLimit =>
    if dailyLimit then
      ⟨[], []⟩
    else
      let pageResult := processPage (env page) page
      let here := match pageResult.result with
        | some r => [r]
        | none => []
      if pageResult.noMoreProducts then
        ⟨here, [page]⟩
      else
        let rest := processPagesAux env fuel (page + 1)
          (dailyLimit || pageResult.dailyLimitReached)
        ⟨here ++ rest.results, page :: rest.navigated⟩

/-- `processPages`: pages 1..repeatCount, starting with a clear flag. -/
def processPages (env : Nat → Nat → Except String ActionResult)
    (repeatCount : Nat) : PagesOutcome :=
  processPagesAux env repeatCount 1 false

/-! ## C7 — detail-crawl batching (onch.repository.ts lines 403-576)

`crawlOnchDetailProducts` splits the product ids into
`Math.ceil(n / CONCURRENT_PAGES)`-sized chunks for `CONCURRENT_PAGES = 2`
workers; each worker accumulates extracted records and flushes a batch to
`saveOnchProductDetails` each time its local buffer reaches 50, flushing the
remainder at the end.  The batching is modelled on the stream of successfully
extracted records. -/

/-- Chunks of size `k + 1`, with explicit fuel (one element is consumed per
step, so `l.length` fuel suffices). -/
def chunkSuccFuel (k : Nat) : Nat → List α → List (List α)
  | 0, _ => []
  | _, [] => []
  | fuel + 1, x :: xs => (x :: xs.take k) :: chunkSuccFuel k fuel (xs.drop k)

/-- Chunks of size `k + 1` of a list. -/
def chunkSucc (k : Nat) (l : List α) : List (List α) :=
  chunkSuccFuel k l.length l

/-- One worker's flushes: batches of 50 records, remainder last. -/
def workerBatches (l : List α) : List (List α) :=
  chunkSucc 49 l

/-- The per-worker chunks: `CHUNK_SIZE = Math.ceil(length / 2)`. -/
def detailChunks (l : List α) : List (List α) :=
  match (l.length + 1) / 2 with
  | 0 => []
  | c + 1 => chunkSucc c l

/-- The batches handed to `saveOnchProductDetails`, worker by worker. -/
def sinkBatches (l : List α) : List (List α) :=
  ((detailChunks l).map workerBatches).flatten

/-! ## C3 / C8 — message dispatcher (onch.message.controller.ts lines 51-122)

`processMessage` switches on the pattern; each recognized case awaits its
service call with no try/catch, so a rejection propagates out of the handler
(modelled as `Except.error`).  The `deleteProducts` case ends in `break`,
returning `undefined` (modelled as `.ok none`); the default case returns the
unrecognized-pattern error envelope. -/

/-- `data` field of a response envelope. -/
inductive ResponseData where
  | soldout (soldoutProductCodes : List String)
  | ordering (results : List OrderResult)
  | deliveries (records : List DeliveryData)
  | product (p : Option String)
deriving DecidableEq, Repr

/-- `{status, data?, message?}` response envelope. -/
structure Response where
  status : String
  data : Option ResponseData
  message : Option String
deriving DecidableEq, Repr

/-- The services the controller dispatches to, each able to reject. -/
structure ControllerEnv where
  clearOnchProducts : Except String Unit
  deleteProducts : Except String Unit
  crawlingOnchSoldoutProducts : Except String (List String)
  crawlOnchRegisteredProducts : Except String Unit
  automaticOrdering : Except String (List OrderResult)
  deliveryExtraction : Except String (List DeliveryData)
  getProductByCode : Except String (Option String)
  productRegistration : Except String Unit

/-- The list of patterns with a dedicated switch case. -/
def recognizedPatterns : List String :=
  ["clearOnchProducts", "deleteProducts", "crawlingOnchSoldoutProducts",
   "crawlOnchRegisteredProducts", "automaticOrdering", "deliveryExtraction",
   "getProductByCode", "productRegistration"]

/-- `processMessage`: `.error` = an exception escaped the handler, `.ok none`
= the handler returned without a response envelope. -/
def processMessage (env : ControllerEnv) (pattern : String) :
    Except String (Option Response) :=
  if pattern = "clearOnchProducts" then do
    let _ ← env.clearOnchProducts
    pure (some ⟨"success", none, none⟩)
  else if pattern = "deleteProducts" then do
    let _ ← env.deleteProducts
    pure none
  else if pattern = "crawlingOnchSoldoutProducts" then do
    let soldoutProductCodes ← env.crawlingOnchSoldoutProducts
    pure (some ⟨"success", some (.soldout soldoutProductCodes), none⟩)
  else if pattern = "crawlOnchRegisteredProducts" then do
    let _ ← env.crawlOnchRegisteredProducts
    pure (some ⟨"success", none, none⟩)
  else if pattern = "automaticOrdering" then do
    let results ← env.automaticOrdering
    pure (some ⟨"success", some (.ordering results), none⟩)
  else if pattern = "deliveryExtraction" then do
    let records ← env.deliveryExtraction
    pure (some ⟨"success", some (.deliveries records), none⟩)
  else if pattern = "getProductByCode" then do
    let p ← env.getProductByCode
    pure (some ⟨"success", some (.product p), none⟩)
  else if pattern = "productRegistration" then do
    let _ ← env.productRegistration
    pure (some ⟨"success", none, none⟩)
  else
    pure (some ⟨"error", none, some ("알 수 없는 패턴 유형: " ++ pattern)⟩)

/-- `extractSoldOutProducts` (CrawlingOnchSoldoutProductsProvider): every
product row that has a `<b>` code element contributes its trimmed text.  A
row is modelled as the optional text of its code element. -/
def extractSoldOutProducts (rows : List (Option String)) : List String :=
  (rows.filterMap id).map trimStr

/-! ## C9 — `setItemQuantity` (automaticOrdering.provider.ts lines 175-219)

The quantity guard is `if (!quantity || quantity <= 0) throw`; only then is
the quantity field awaited (`touched`), triple-clicked and filled with
`quantity.toString()` (re-filled with the same text if the read-back
differs). -/

/-- Whether the quantity input becomes visible within the timeout. -/
structure QtyEnv where
  fieldVisible : Bool

/-- Result of `setItemQuantity`: the outcome (`.ok` carries the text finally
written into the field) and whether any page interaction was attempted. -/
structure QtyOutcome where
  outcome : Except String String
  touched : Bool
deriving Repr

/-- `setItemQuantity`. -/
def setItemQuantity (env : QtyEnv) (quantity : Int) : QtyOutcome :=
  if quantity = 0 ∨ quantity ≤ 0 then
    ⟨.error ("유효하지 않은 발주 개수: " ++ toString quantity), false⟩
  else if env.fieldVisible then
    ⟨.ok (toString quantity), true⟩
  else
    ⟨.error "수량 설정 실패 - Timeout", true⟩

/-! ## C10 — `extractRegistrationCounts` (onch.queue.processor.ts)

Four fixed regexes pull the per-category counts out of the confirmation
message; a missing match contributes 0, and `totalProcessed` is their sum. -/

/-- The summary record returned by `extractRegistrationCounts`. -/
structure RegistrationCounts where
  successCount : Nat
  failCount : Nat
  alreadyRegisteredCount : Nat
  duplicateNameCount : Nat
  totalProcessed : Nat
deriving DecidableEq, Repr

/-- `extractRegistrationCounts`. -/
def extractRegistrationCounts (alertMessage : String) : RegistrationCounts :=
  let successCount := (matchLabeledCount "성공 : " alertMessage).getD 0
  let failCount := (matchLabeledCount "실패 : " alertMessage).getD 0
  let alreadyRegisteredCount :=
    (matchLabeledCount "이미 등록된 상품 : " alertMessage).getD 0
  let duplicateNameCount :=
    (matchLabeledCount "동일한 상품명 : " alertMessage).getD 0
  ⟨successCount, failCount, alreadyRegisteredCount, duplicateNameCount,
    successCount + failCount + alreadyRegisteredCount + duplicateNameCount⟩

/-! ## Theorems -/

theorem crawlLoop_spec (src : Nat → List String) :
    ∀ (k start fuel : Nat), k + 1 ≤ fuel →
      (∀ i, start ≤ i → i < start + k → src i ≠ []) →
      src (start + k) = [] →
      crawlLoop src fuel start =
        (((List.range' start k).map src).flatten, List.range' start (k + 1)) := by
  intro k
  induction k with
  | zero =>
    intro start fuel hfuel _ hempty
    obtain ⟨m, rfl⟩ : ∃ m, fuel = m + 1 := ⟨fuel - 1, by omega⟩
    rw [Nat.add_zero] at hempty
    simp [crawlLoop, hempty, List.range'_one]
  | succ k ih =>
    intro start fuel hfuel hne hempty
    obtain ⟨m, rfl⟩ : ∃ m, fuel = m + 1 := ⟨fuel - 1, by omega⟩
    have hs : src start ≠ [] := hne start (Nat.le_refl _) (by omega)
    have hrec := ih (start + 1) m (by omega)
      (fun i h1 h2 => hne i (by omega) (by omega))
      (by rw [show start + 1 + k = start + (k + 1) from by omega]; exact hempty)
    simp only [crawlLoop, List.isEmpty_eq_true, hs, if_false, hrec]
    rw [List.range'_succ start (k + 1) 1, List.range'_succ start k 1]
    simp

theorem deliveryLoop_spec (recs : Nat → List DeliveryData) (mv : Nat → Bool) :
    ∀ (k start fuel : Nat), k + 1 ≤ fuel →
      (∀ i, start ≤ i → i < start + k → recs i ≠ []) →
      recs (start + k) = [] →
      (∀ i, start ≤ i → i < start + k → mv i = true) →
      deliveryLoop recs mv fuel start =
        (((List.range' start k).map recs).flatten, List.range' start (k + 1)) := by
  intro k
  induction k with
  | zero =>
    intro start fuel hfuel _ hempty _
    obtain ⟨m, rfl⟩ : ∃ m, fuel = m + 1 := ⟨fuel - 1, by omega⟩
    rw [Nat.add_zero] at hempty
    simp [deliveryLoop, hempty, List.range'_one]
  | succ k ih =>
    intro start fuel hfuel hne hempty hmv
    obtain ⟨m, rfl⟩ : ∃ m, fuel = m + 1 := ⟨fuel - 1, by omega⟩
    have hs : recs start ≠ [] := hne start (Nat.le_refl _) (by omega)
    have hm : mv start = true := hmv start (Nat.le_refl _) (by omega)
    have hrec := ih (start + 1) m (by omega)
      (fun i h1 h2 => hne i (by omega) (by omega))
      (by rw [show start + 1 + k = start + (k + 1) from by omega]; exact hempty)
      (fun i h1 h2 => hmv i (by omega) (by omega))
    simp only [deliveryLoop, List.isEmpty_eq_true, hs, if_false, hm, if_true, hrec]
    rw [List.range'_succ start (k + 1) 1, List.range'_succ start k 1]
    simp

/-- Claim C1: for every N ≥ 0 and every mock page source yielding N non-empty
record lists on pages 1..N and an empty list on page N+1 (with, for the
delivery loop, a working next-page affordance on pages 1..N), both pagination
loops fetch exactly pages 1..N+1 — so N+1 fetches, none after the first empty
page — and return the concatenation of the N non-empty pages' records in
page-traversal order.  Any fuel ≥ N+1 suffices, so the loops terminate. -/
theorem pagination_termination
    (N fuel : Nat) (src : Nat → List String)
    (recs : Nat → List DeliveryData) (mv : Nat → Bool)
    (hfuel : N + 1 ≤ fuel)
    (hsrc : ∀ i, 1 ≤ i → i ≤ N → src i ≠ []) (hsrcEnd : src (N + 1) = [])
    (hrecs : ∀ i, 1 ≤ i → i ≤ N → recs i ≠ []) (hrecsEnd : recs (N + 1) = [])
    (hmv : ∀ i, 1 ≤ i → i ≤ N → mv i = true) :
    crawlProductList src fuel =
      (((List.range' 1 N).map src).flatten, List.range' 1 (N + 1)) ∧
    extractDeliveryData recs mv fuel =
      (((List.range' 1 N).map recs).flatten, List.range' 1 (N + 1)) := by
  constructor
  · exact crawlLoop_spec src N 1 fuel hfuel
      (fun i h1 h2 => hsrc i h1 (by omega))
      (by rw [Nat.add_comm 1 N]; exact hsrcEnd)
  · exact deliveryLoop_spec recs mv N 1 fuel hfuel
      (fun i h1 h2 => hrecs i h1 (by omega))
      (by rw [Nat.add_comm 1 N]; exact hrecsEnd)
      (fun i h1 h2 => hmv i h1 (by omega))

/-- Witness for C1 at N = 2: two non-empty pages then an empty one. -/
theorem pagination_termination_witness :
    crawlProductList (fun p => if p ≤ 2 then ["a"] else []) 5 =
      (["a", "a"], [1, 2, 3]) ∧
    extractDeliveryData (fun p => if p ≤ 2 then [⟨"d", "n", "p", "c", "t"⟩] else [])
        (fun _ => true) 5 =
      ([⟨"d", "n", "p", "c", "t"⟩, ⟨"d", "n", "p", "c", "t"⟩], [1, 2, 3]) := by
  have h := pagination_termination 2 5
      (fun p => if p ≤ 2 then ["a"] else [])
      (fun p => if p ≤ 2 then [⟨"d", "n", "p", "c", "t"⟩] else [])
      (fun _ => true)
      (by omega)
      (fun i h1 h2 => by simp [h2])
      (by norm_num)
      (fun i h1 h2 => by simp [h2])
      (by norm_num)
      (fun i h1 h2 => rfl)
  exact ⟨by rw [h.1]; rfl, by rw [h.2]; rfl⟩

theorem orderItemsLoop_eq (env : PageEnv) (order : CoupangOrderInfo) :
    ∀ (items : List OrderItem) (acc : List OrderResult),
      orderItemsLoop env order acc items =
        acc ++ items.map (processOrderItem env order) := by
  intro items
  induction items with
  | nil => intro acc; simp [orderItemsLoop]
  | cons item rest ih =>
    intro acc
    simp [orderItemsLoop, ih]

theorem ordersLoop_eq (env : PageEnv) :
    ∀ (orders : List CoupangOrderInfo) (acc : List OrderResult),
      ordersLoop env acc orders =
        acc ++ (orders.map
          (fun o => o.orderItems.map (processOrderItem env o))).flatten := by
  intro orders
  induction orders with
  | nil => intro acc; simp [ordersLoop]
  | cons o rest ih =>
    intro acc
    simp [ordersLoop, ih, orderItemsLoop_eq]

/-- Claim C2: `automaticOrdering` appends exactly one `OrderResult` per order
item — the per-item record (`success`, or `failed` carrying the thrown
reason) — in iteration order; since the result list is literally the
item-by-item map, an exception on one item never prevents any other item
from being attempted, and the number of results equals the total number of
order items. -/
theorem orderItem_isolation (env : PageEnv) (orders : List CoupangOrderInfo) :
    automaticOrdering env orders =
      (orders.map (fun o => o.orderItems.map (processOrderItem env o))).flatten ∧
    (automaticOrdering env orders).length =
      (orders.map (fun o => o.orderItems.length)).sum := by
  have h := ordersLoop_eq env orders []
  constructor
  · simpa [automaticOrdering] using h
  · rw [automaticOrdering, h]
    simp only [List.nil_append, List.length_flatten, List.map_map]
    refine congrArg List.sum (List.map_congr_left ?_)
    intro o _
    simp

theorem addUnique_nodup {acc : List String} (h : acc.Nodup) (c : String) :
    (addUnique acc c).Nodup := by
  unfold addUnique
  by_cases hc : c ∈ acc
  · simpa [hc]
  · simp [hc, List.nodup_append, h]

theorem mem_addUnique {acc : List String} {c d : String} :
    d ∈ addUnique acc c ↔ d ∈ acc ∨ d = c := by
  unfold addUnique
  by_cases hc : c ∈ acc
  · simp only [hc, if_true]
    constructor
    · exact fun h => Or.inl h
    · rintro (h | rfl)
      · exact h
      · exact hc
  · simp [hc]

theorem extractFold_spec (records : List SoldoutRecord) :
    ∀ acc : List String, acc.Nodup →
      (records.foldl
          (fun acc r =>
            match extractOne r with
            | some c => addUnique acc c
            | none => acc) acc).Nodup ∧
      ∀ c, c ∈ records.foldl
          (fun acc r =>
            match extractOne r with
            | some c => addUnique acc c
            | none => acc) acc ↔
        (c ∈ acc ∨ ∃ r ∈ records, extractOne r = some c) := by
  induction records with
  | nil =>
    intro acc hacc
    exact ⟨hacc, fun c => by simp⟩
  | cons r rest ih =>
    intro acc hacc
    cases hr : extractOne r with
    | none =>
      have h := ih acc hacc
      constructor
      · simpa [List.foldl_cons, hr] using h.1
      · intro c
        rw [List.foldl_cons, hr]
        rw [(by simp : (match (none : Option String) with
            | some c => addUnique acc c
            | none => acc) = acc)]
        rw [h.2 c]
        constructor
        · rintro (h1 | ⟨r', hr', he⟩)
          · exact Or.inl h1
          · exact Or.inr ⟨r', List.mem_cons_of_mem _ hr', he⟩
        · rintro (h1 | ⟨r', hr', he⟩)
          · exact Or.inl h1
          · rcases List.mem_cons.mp hr' with rfl | hr''
            · rw [hr] at he; cases he
            · exact Or.inr ⟨r', hr'', he⟩
    | some code =>
      have h := ih (addUnique acc code) (addUnique_nodup hacc code)
      constructor
      · simpa [List.foldl_cons, hr] using h.1
      · intro c
        rw [List.foldl_cons, hr]
        rw [(by simp : (match (some code : Option String) with
            | some c => addUnique acc c
            | none => acc) = addUnique acc code)]
        rw [h.2 c, mem_addUnique]
        constructor
        · rintro ((h1 | rfl) | ⟨r', hr', he⟩)
          · exact Or.inl h1
          · exact Or.inr ⟨r, List.mem_cons_self _ _, hr⟩
          · exact Or.inr ⟨r', List.mem_cons_of_mem _ hr', he⟩
        · rintro (h1 | ⟨r', hr', he⟩)
          · exact Or.inl (Or.inl h1)
          · rcases List.mem_cons.mp hr' with rfl | hr''
            · rw [hr] at he
              exact Or.inl (Or.inr (Option.some_injective _ he).symm)
            · exact Or.inr ⟨r', hr'', he⟩

/-- Claim C4: `extractProductCodes` never returns a duplicate, and a code
appears in the output exactly when some input record yields it (via the
`coupangProductCode` field, the `CH` + 7-digit regex on `sellerProductName`,
`sellerManagementCode`, or `externalVendorSkuCode`), so every distinct code
present in the input is preserved. -/
theorem extract_product_codes_dedup (records : List SoldoutRecord) :
    (extractProductCodes records).Nodup ∧
    ∀ c, c ∈ extractProductCodes records ↔ ∃ r ∈ records, extractOne r = some c := by
  have h := extractFold_spec records [] List.nodup_nil
  refine ⟨h.1, fun c => ?_⟩
  rw [extractProductCodes, h.2 c]
  simp

theorem processPagesAux_dl (env : Nat → Nat → Except String ActionResult) :
    ∀ (fuel page : Nat), processPagesAux env fuel page true = ⟨[], []⟩ := by
  intro fuel page
  cases fuel with
  | zero => rfl
  | succ n => simp [processPagesAux]

theorem processPagesAux_nav_lb (env : Nat → Nat → Except String ActionResult) :
    ∀ (fuel page : Nat) (dl : Bool) (q : Nat),
      q ∈ (processPagesAux env fuel page dl).navigated → page ≤ q := by
  intro fuel
  induction fuel with
  | zero => intro page dl q hq; simp [processPagesAux] at hq
  | succ n ih =>
    intro page dl q hq
    by_cases hdl : dl
    · subst hdl; simp [processPagesAux] at hq
    · rw [eq_false_of_ne_true hdl] at hq
      simp only [processPagesAux, Bool.false_eq_true, if_false] at hq
      by_cases hnm : (processPage (env page) page).noMoreProducts
      · simp [hnm] at hq
        omega
      · simp [hnm] at hq
        rcases hq with rfl | hq'
        · exact Nat.le_refl _
        · have := ih (page + 1) _ q hq'
          omega

theorem processPagesAux_short_circuit (env : Nat → Nat → Except String ActionResult) :
    ∀ (fuel page : Nat) (dl : Bool) (p q : Nat),
      (processPage (env p) p).dailyLimitReached = true →
      p ∈ (processPagesAux env fuel page dl).navigated →
      q ∈ (processPagesAux env fuel page dl).navigated → q ≤ p := by
  intro fuel
  induction fuel with
  | zero => intro page dl p q _ hp _; simp [processPagesAux] at hp
  | succ n ih =>
    intro page dl p q hflag hp hq
    by_cases hdl : dl
    · subst hdl; simp [processPagesAux] at hp
    · rw [eq_false_of_ne_true hdl] at hp hq
      simp only [processPagesAux, Bool.false_eq_true, if_false] at hp hq
      by_cases hnm : (processPage (env page) page).noMoreProducts
      · simp [hnm] at hp hq
        omega
      · simp [hnm] at hp hq
        rcases hp with rfl | hp'
        · rcases hq with rfl | hq'
          · exact Nat.le_refl _
          · rw [hflag] at hq'
            rw [processPagesAux_dl] at hq'
            simp at hq'
        · rcases hq with rfl | hq'
          · have h2 := processPagesAux_nav_lb env n _ _ p hp'
            omega
          · exact ih _ _ p q hflag hp' hq'

/-- Claim C5: once `processPage` reports the daily limit on a navigated page
`p`, no later page of the same repeat-count loop is navigated (every
navigated page is ≤ p); and whenever `performProductRegistrationAction`
resolves with `dailyLimitReached`, it has emitted exactly one notification
during the detection window. -/
theorem daily_limit_short_circuit
    (env : Nat → Nat → Except String ActionResult) (repeatCount p q : Nat)
    (hflag : (processPage (env p) p).dailyLimitReached = true)
    (hp : p ∈ (processPages env repeatCount).navigated)
    (hq : q ∈ (processPages env repeatCount).navigated) :
    q ≤ p ∧
    ∀ (aenv : ActionEnv) (a : ActionResult),
      (performProductRegistrationAction aenv).1 = .ok a →
      a.dailyLimitReached = true →
      (performProductRegistrationAction aenv).2 = 1 := by
  constructor
  · exact processPagesAux_short_circuit env repeatCount 1 false p q hflag hp hq
  · intro aenv a hok hdl
    unfold performProductRegistrationAction at hok ⊢
    cases hmsg : aenv.dialogMsg with
    | none => rw [hmsg] at hok; cases hok
    | some m =>
      rw [hmsg] at hok
      simp only [Except.ok.injEq] at hok
      have : a.dailyLimitReached = aenv.apiCaptured := by rw [← hok]
      rw [hdl] at this
      simp [← this]

/-- Witness for C5: a source that flags the daily limit on page 2; pages
navigated are exactly [1, 2]. -/
theorem daily_limit_short_circuit_witness :
    (1 : Nat) ≤ 2 ∧ (performProductRegistrationAction ⟨true, some "m"⟩).2 = 1 := by
  have h := daily_limit_short_circuit
      (fun page _ => if page = 2 then .ok ⟨"msg", true⟩ else .ok ⟨"ok", false⟩)
      5 2 1 (by decide) (by decide) (by decide)
  exact ⟨h.1, h.2 ⟨true, some "m"⟩ ⟨"m", true⟩ rfl rfl⟩

/-- Claim C6: on a page whose registration action throws on every attempt,
`processPage` makes exactly `MAX_RETRY_COUNT` = 3 attempts (with the fixed
delay between consecutive attempts, hence 2 delays), then returns — without
propagating the exception — a per-page result with `success = false` and
`errorMessage` equal to the message of the last (third) error. -/
theorem retry_bound (env : Nat → Except String ActionResult) (currentPage : Nat)
    (e : Nat → String) (h : ∀ i, env i = .error (e i)) :
    processPage env currentPage =
      ⟨some ⟨currentPage, false, "", e 2⟩, false, false, 3, 2⟩ ∧
    MAX_RETRY_COUNT = 3 := by
  refine ⟨?_, rfl⟩
  rw [processPage, MAX_RETRY_COUNT]
  rw [show (3 : Nat) = 2 + 1 from rfl]
  rw [processPageAux, h 0]
  rw [show (2 : Nat) = 1 + 1 from rfl]
  rw [processPageAux, h 1]
  rw [show (1 : Nat) = 0 + 1 from rfl]
  rw [processPageAux, h 2]
  simp

/-- Witness for C6: an action failing on every attempt with messages E0, E1,
E2; page 7 is recorded failed with errorMessage "E2" after 3 attempts. -/
theorem retry_bound_witness :
    processPage (fun i => .error ("E" ++ toString i)) 7 =
      ⟨some ⟨7, false, "", "E2"⟩, false, false, 3, 2⟩ ∧ MAX_RETRY_COUNT = 3 := by
  have h := retry_bound (fun i => .error ("E" ++ toString i)) 7
    (fun i => "E" ++ toString i) (fun _ => rfl)
  simpa using h

theorem chunkSuccFuel_flatten {α : Type} (k : Nat) :
    ∀ (fuel : Nat) (l : List α), l.length ≤ fuel →
      (chunkSuccFuel k fuel l).flatten = l := by
  intro fuel
  induction fuel with
  | zero =>
    intro l hl
    have : l = [] := List.eq_nil_of_length_eq_zero (by omega)
    subst this
    rfl
  | succ n ih =>
    intro l hl
    cases l with
    | nil => rfl
    | cons x xs =>
      have hx : (xs.drop k).length ≤ n := by
        rw [List.length_drop]
        simp at hl
        omega
      simp only [chunkSuccFuel, List.flatten_cons, ih (xs.drop k) hx]
      rw [List.cons_append, List.take_append_drop]

/-- The batch sizes produced by `chunkSuccFuel`, as a function of the input
length only. -/
def chunkSizes (k : Nat) : Nat → Nat → List Nat
  | 0, _ => []
  | _ + 1, 0 => []
  | fuel + 1, n + 1 => (min (k + 1) (n + 1)) :: chunkSizes k fuel (n - k)

theorem chunkSuccFuel_sizes {α : Type} (k : Nat) :
    ∀ (fuel : Nat) (l : List α),
      (chunkSuccFuel k fuel l).map List.length = chunkSizes k fuel l.length := by
  intro fuel
  induction fuel with
  | zero => intro l; simp [chunkSuccFuel, chunkSizes]
  | succ n ih =>
    intro l
    cases l with
    | nil => simp [chunkSuccFuel, chunkSizes]
    | cons x xs =>
      simp only [chunkSuccFuel, List.map_cons, List.length_cons, chunkSizes,
        ih (xs.drop k), List.length_drop]
      congr 1
      rw [List.length_take]
      omega

/-- The sink batch sizes as a function of the record-count only. -/
def sinkSizes (n : Nat) : List Nat :=
  ((match (n + 1) / 2 with
    | 0 => ([] : List Nat)
    | c + 1 => chunkSizes c n n).map (fun m => chunkSizes 49 m m)).flatten

theorem sinkBatches_sizes {α : Type} (l : List α) :
    (sinkBatches l).map List.length = sinkSizes l.length := by
  cases hc : (l.length + 1) / 2 with
  | zero =>
    rw [sinkBatches, sinkSizes, detailChunks, hc]
    simp
  | succ c =>
    rw [sinkBatches, sinkSizes, detailChunks, hc, List.map_flatten, List.map_map]
    show (List.map (List.map List.length ∘ workerBatches) (chunkSucc c l)).flatten =
      (List.map (fun m => chunkSizes 49 m m) (chunkSizes c l.length l.length)).flatten
    rw [← chunkSuccFuel_sizes c l.length l]
    rw [List.map_map]
    refine congrArg List.flatten (List.map_congr_left ?_)
    intro cl _
    simp only [Function.comp, workerBatches, chunkSucc, chunkSuccFuel_sizes]

theorem sinkBatches_flatten {α : Type} (l : List α) :
    (sinkBatches l).flatten = l := by
  rw [sinkBatches, List.flatten_flatten, List.map_map]
  have hmap : ∀ (cl : List α),
      ((List.flatten ∘ workerBatches) cl) = id cl := by
    intro cl
    simp only [Function.comp, workerBatches, chunkSucc, id]
    exact chunkSuccFuel_flatten 49 cl.length cl (Nat.le_refl _)
  rw [List.map_congr_left (fun cl _ => hmap cl), List.map_id]
  rw [detailChunks]
  cases hc : (l.length + 1) / 2 with
  | zero =>
    have : l = [] := by
      cases l with
      | nil => rfl
      | cons x xs => simp at hc; omega
    subst this
    rfl
  | succ c =>
    exact chunkSuccFuel_flatten c l.length l (Nat.le_refl _)

/-- Claim C7 counterexample: with 123 extracted records, the persistence sink
receives 4 batches (of sizes 50, 12, 50, 11) — not 3 batches of 50, 50, 23. -/
theorem batching_123_cex :
    (sinkBatches (List.range 123)).length = 4 ∧
    (sinkBatches (List.range 123)).map List.length = [50, 12, 50, 11] ∧
    (sinkBatches (List.range 123)).map List.length ≠ [50, 50, 23] := by
  have h : (sinkBatches (List.range 123)).map List.length = [50, 12, 50, 11] := by
    rw [sinkBatches_sizes]
    simp only [List.length_range]
    decide
  refine ⟨?_, h, by rw [h]; decide⟩
  have hlen := congrArg List.length h
  simpa using hlen

/-- Claim C7 (amended): the 123 records are first split into per-worker
chunks of 62 and 61 (`Math.ceil(123 / 2)` with 2 parallel pages); each worker
flushes at the fixed batch size 50 and then flushes its remainder, so the
sink receives exactly 4 batches, of sizes 50, 12, 50 and 11, and the batches
together contain every record exactly once in worker order. -/
theorem batching_123 {α : Type} (l : List α) (h : l.length = 123) :
    (sinkBatches l).map List.length = [50, 12, 50, 11] ∧
    (sinkBatches l).flatten = l := by
  constructor
  · rw [sinkBatches_sizes, h]
    decide
  · exact sinkBatches_flatten l

/-- Witness for C7 (amended) at the concrete list `List.range 123`. -/
theorem batching_123_witness :
    (sinkBatches (List.range 123)).map List.length = [50, 12, 50, 11] ∧
    (sinkBatches (List.range 123)).flatten = List.range 123 :=
  batching_123 (List.range 123) (by simp)

/-- A handler environment in which every service call succeeds. -/
def envAllOk : ControllerEnv :=
  ⟨.ok (), .ok (), .ok ["A1", "A2"], .ok (), .ok [], .ok [], .ok none, .ok ()⟩

/-- Like `envAllOk` but `clearOnchProducts` rejects. -/
def envClearBoom : ControllerEnv :=
  { envAllOk with clearOnchProducts := .error "boom" }

/-- Claim C3 counterexample: the dispatcher does not always return a
`{status, ...}` envelope and does let exceptions escape — the recognized
pattern `deleteProducts` returns no envelope even when its handler succeeds,
and a rejection of the `clearOnchProducts` handler propagates out of
`processMessage` uncaught. -/
theorem dispatcher_totality_cex :
    processMessage envAllOk "deleteProducts" = .ok none ∧
    processMessage envClearBoom "clearOnchProducts" = .error "boom" :=
  ⟨rfl, rfl⟩

/-- Claim C3 (amended): for every pattern outside the recognized set,
`processMessage` returns the `{status: 'error', message}` envelope naming the
unrecognized pattern, whatever the handlers would do; for recognized patterns,
however, handler exceptions are not caught (they propagate to the message-bus
boundary), and the `deleteProducts` case produces no response envelope. -/
theorem dispatcher_unknown_pattern (env : ControllerEnv) (pattern : String)
    (h : pattern ∉ recognizedPatterns) :
    processMessage env pattern =
      .ok (some ⟨"error", none, some ("알 수 없는 패턴 유형: " ++ pattern)⟩) := by
  simp only [recognizedPatterns, List.mem_cons, List.not_mem_nil, or_false,
    not_or] at h
  obtain ⟨h1, h2, h3, h4, h5, h6, h7, h8⟩ := h
  rw [processMessage]
  simp only [h1, h2, h3, h4, h5, h6, h7, h8, if_false]
  rfl

/-- Witness for C3 (amended) at the unknown pattern "bogus". -/
theorem dispatcher_unknown_pattern_witness :
    processMessage envAllOk "bogus" =
      .ok (some ⟨"error", none, some "알 수 없는 패턴 유형: bogus"⟩) := by
  have h := dispatcher_unknown_pattern envAllOk "bogus" (by decide)
  simpa using h

/-- The mocked sold-out page for C8: two product rows whose code cells read
"A1" and "A2". -/
def soldoutMockRows : List (Option String) := [some "A1", some "A2"]

/-- Handler environment whose sold-out crawl returns what
`extractSoldOutProducts` reads off the mocked page. -/
def envC8 : ControllerEnv :=
  { envAllOk with
    crawlingOnchSoldoutProducts := .ok (extractSoldOutProducts soldoutMockRows) }

/-- Claim C8 counterexample: the pattern spelled 'crawlOnchSoldoutProducts'
has no switch case — the dispatcher answers with the unrecognized-pattern
error envelope, not with a completed job carrying the sold-out codes. -/
theorem soldout_end_to_end_cex :
    processMessage envC8 "crawlOnchSoldoutProducts" =
      .ok (some ⟨"error", none,
        some "알 수 없는 패턴 유형: crawlOnchSoldoutProducts"⟩) := rfl

/-- Claim C8 (amended): with the recognized spelling
'crawlingOnchSoldoutProducts' and a mocked sold-out page whose code cells
yield "A1" and "A2", the dispatcher returns
`{status: 'success', data: {soldoutProductCodes: ["A1", "A2"]}}`; the
extraction reads a single page, so no second page is fetched. -/
theorem soldout_end_to_end :
    processMessage envC8 "crawlingOnchSoldoutProducts" =
      .ok (some ⟨"success", some (.soldout ["A1", "A2"]), none⟩) := rfl

/-- Claim C9: the quantity-setting step (`setItemQuantity`, the provider
method behind SetQuantity) requires quantity > 0 — every non-positive
quantity throws the invalid-quantity error before any page interaction
(`touched = false`), and for every positive quantity that error is never
raised: any error raised then is the wrapped field-timeout, and when the
field is visible the decimal rendering of the quantity is filled in. -/
theorem quantity_precondition (env : QtyEnv) (quantity : Int) :
    (quantity ≤ 0 →
      setItemQuantity env quantity =
        ⟨.error ("유효하지 않은 발주 개수: " ++ toString quantity), false⟩) ∧
    (0 < quantity →
      (∀ msg, (setItemQuantity env quantity).outcome = .error msg →
        includesStr msg "유효하지 않은 발주 개수" = false) ∧
      (env.fieldVisible = true →
        setItemQuantity env quantity = ⟨.ok (toString quantity), true⟩)) := by
  constructor
  · intro hq
    rw [setItemQuantity, if_pos (Or.inr hq)]
  · intro hq
    have hcond : ¬(quantity = 0 ∨ quantity ≤ 0) := by omega
    constructor
    · intro msg hmsg
      rw [setItemQuantity, if_neg hcond] at hmsg
      cases hv : env.fieldVisible with
      | true =>
        rw [hv] at hmsg
        simp at hmsg
      | false =>
        rw [hv] at hmsg
        simp only [Bool.false_eq_true, if_false] at hmsg
        have hm : msg = "수량 설정 실패 - Timeout" := by
          have := hmsg.symm
          simpa using this
        subst hm
        decide
    · intro hv
      rw [setItemQuantity, if_neg hcond, hv]
      simp

/-- Witness for C9: quantity 0 throws the invalid-quantity error untouched,
quantity 3 fills "3". -/
theorem quantity_precondition_witness :
    setItemQuantity ⟨true⟩ 0 =
      ⟨.error ("유효하지 않은 발주 개수: " ++ toString (0 : Int)), false⟩ ∧
    setItemQuantity ⟨true⟩ 3 = ⟨.ok (toString (3 : Int)), true⟩ :=
  ⟨(quantity_precondition ⟨true⟩ 0).1 (by omega),
   ((quantity_precondition ⟨true⟩ 3).2 (by omega)).2 rfl⟩

/-- Claim C10: `extractRegistrationCounts` is total on strings and returns
four (non-negative, `Nat`-valued) counts, each of which is 0 whenever its
fixed regex finds no match, with `totalProcessed` always exactly the sum of
the four counts. -/
theorem registration_counts_total (s : String) :
    (extractRegistrationCounts s).totalProcessed =
      (extractRegistrationCounts s).successCount +
      (extractRegistrationCounts s).failCount +
      (extractRegistrationCounts s).alreadyRegisteredCount +
      (extractRegistrationCounts s).duplicateNameCount ∧
    (matchLabeledCount "성공 : " s = none →
      (extractRegistrationCounts s).successCount = 0) ∧
    (matchLabeledCount "실패 : " s = none →
      (extractRegistrationCounts s).failCount = 0) ∧
    (matchLabeledCount "이미 등록된 상품 : " s = none →
      (extractRegistrationCounts s).alreadyRegisteredCount = 0) ∧
    (matchLabeledCount "동일한 상품명 : " s = none →
      (extractRegistrationCounts s).duplicateNameCount = 0) := by
  refine ⟨rfl, ?_, ?_, ?_, ?_⟩ <;> intro h <;> simp [extractRegistrationCounts, h]

/-- Witness for C10 on the matchless string "abc". -/
theorem registration_counts_total_witness :
    matchLabeledCount "성공 : " "abc" = none ∧
    (extractRegistrationCounts "abc").successCount = 0 ∧
    (extractRegistrationCounts "abc").totalProcessed =
      (extractRegistrationCounts "abc").successCount +
      (extractRegistrationCounts "abc").failCount +
      (extractRegistrationCounts "abc").alreadyRegisteredCount +
      (extractRegistrationCounts "abc").duplicateNameCount :=
  ⟨rfl, (registration_counts_total "abc").2.1 rfl,
    (registration_counts_total "abc").1⟩

/-- The spec's 3-item scenario: dropdown options 빨강/파랑, receiver valid. -/
def envW : PageEnv :=
  { orderButtonFor := fun _ => true,
    options := [⟨"빨강", "1"⟩, ⟨"파랑", "2"⟩],
    quantityFieldOk := true,
    fillResult := .ok (),
    completeResult := .ok () }

/-- One order with three items; item 2 requests the unmatched option 노랑. -/
def orderW : CoupangOrderInfo :=
  { orderId := "O1",
    orderer := ⟨"구매자"⟩,
    receiver := ⟨"수취인", "050-1234", "12345", "주소1", "주소2"⟩,
    orderItems :=
      [⟨"P 상품", "빨강", "CH0000001", "P 상품, 빨강", 1⟩,
       ⟨"P 상품", "노랑", "CH0000001", "P 상품, 노랑", 1⟩,
       ⟨"P 상품", "파랑", "CH0000001", "P 상품, 파랑", 1⟩] }

/-- Witness for C2 on the 3-item scenario: the result list is the per-item
map (item 2's failure does not suppress items 1 and 3) and has 3 entries. -/
theorem orderItem_isolation_witness :
    automaticOrdering envW [orderW] =
      ([orderW].map (fun o => o.orderItems.map (processOrderItem envW o))).flatten ∧
    (automaticOrdering envW [orderW]).length = 3 :=
  ⟨(orderItem_isolation envW [orderW]).1,
   by rw [(orderItem_isolation envW [orderW]).2]; rfl⟩

/-- Witness for C4 on a two-record input with a repeated code. -/
theorem extract_product_codes_dedup_witness :
    (extractProductCodes
      [⟨some "A", none, none, none⟩, ⟨some "A", none, none, none⟩]).Nodup ∧
    ("A" ∈ extractProductCodes
        [⟨some "A", none, none, none⟩, ⟨some "A", none, none, none⟩] ↔
      ∃ r ∈ [(⟨some "A", none, none, none⟩ : SoldoutRecord),
             ⟨some "A", none, none, none⟩],
        extractOne r = some "A") :=
  ⟨(extract_product_codes_dedup _).1, (extract_product_codes_dedup _).2 "A"⟩
